import Mathlib

/-!
Shallow embedding of the CodeFlow-Intelligence activity-telemetry core
(devtracker: types.ts, dataManager.ts, activityTracker.ts, apiClient.ts).
Pure computations mirror the source directly; the stateful methods of
`DataManager` are modelled as explicit transformers of the in-memory
event log, and the sync path takes the remote response as an explicit
`Except` parameter (a thrown error on the wire becomes `Except.error`).
-/

namespace CodeFlow

/-- Event type enumeration (types.ts, `ActivityType`, 26 variants). -/
inductive ActivityType where
  | fileOpen
  | fileClose
  | fileSwitch
  | fileEdit
  | fileSave
  | fileCreate
  | fileDelete
  | fileRename
  | commandExecute
  | debugStart
  | debugStop
  | debugBreakpoint
  | terminalOpen
  | terminalClose
  | extensionInstall
  | extensionUninstall
  | workspaceOpen
  | workspaceClose
  | focusGained
  | focusLost
  | taskStart
  | taskEnd
  | gitCommit
  | gitPush
  | gitPull
  | searchPerformed
  deriving DecidableEq, Repr

/-- One telemetry record (types.ts, `ActivityEvent`). Timestamps are epoch
milliseconds. The variant payload (`data`) is not carried because none of
the embedded operations below reads it. -/
structure ActivityEvent where
  id : String
  timestamp : Int
  type : ActivityType
  sessionId : String
  deriving DecidableEq, Repr

/-- One working session (types.ts, `SessionData`). -/
structure SessionData where
  id : String
  startTime : Int
  endTime : Option Int
  totalEvents : Nat
  activeTime : Int
  deriving DecidableEq, Repr

namespace DataManager

/-- Hard cap on the in-memory log (dataManager.ts, `maxEvents`). -/
def maxEvents : Nat := 50000

/-- Effect of `DataManager.addEvent` on the event log: push at the tail,
then, if the log exceeds `maxEvents`, keep only the most recent
`Math.floor(maxEvents * 0.8)` events (`this.events.slice(-40000)`). -/
def addEvent (events : List ActivityEvent) (e : ActivityEvent) : List ActivityEvent :=
  let pushed := events ++ [e]
  if maxEvents < pushed.length then
    pushed.drop (pushed.length - maxEvents * 8 / 10)
  else
    pushed

/-- Query of `DataManager.getEvents`: an optional lower-bound filter
(`timestamp >= startDate`) followed by an optional upper-bound filter
(`timestamp <= endDate`). -/
def getEvents (events : List ActivityEvent) (startDate endDate : Option Int) :
    List ActivityEvent :=
  let afterStart :=
    match startDate with
    | some s => events.filter (fun e => decide (s ≤ e.timestamp))
    | none => events
  match endDate with
  | some t => afterStart.filter (fun e => decide (e.timestamp ≤ t))
  | none => afterStart

/-- Comparison used by `events.sort((a, b) => a.timestamp - b.timestamp)`. -/
def byTimestamp (a b : ActivityEvent) : Prop := a.timestamp ≤ b.timestamp

instance : DecidableRel byTimestamp :=
  fun a b => inferInstanceAs (Decidable (a.timestamp ≤ b.timestamp))

instance : IsTotal ActivityEvent byTimestamp :=
  ⟨fun a b => Int.le_total a.timestamp b.timestamp⟩

instance : IsTrans ActivityEvent byTimestamp :=
  ⟨fun _ _ _ hab hbc => le_trans hab hbc⟩

/-- Timestamp-ascending sort applied by the time aggregations. -/
def sortEvents (l : List ActivityEvent) : List ActivityEvent :=
  l.insertionSort byTimestamp

/-- Idle threshold of `calculateActiveTime` (5 minutes in milliseconds). -/
def maxIdleTime : Int := 5 * 60 * 1000

/-- The `activeEventTypes` array of `calculateActiveTime`. -/
def activeEventTypes : List ActivityType :=
  [.fileEdit, .fileSwitch, .commandExecute, .focusGained]

/-- Membership test `activeEventTypes.includes(event.type)`. -/
def isActiveType (t : ActivityType) : Bool :=
  decide (t ∈ activeEventTypes)

/-- Loop body of `calculateActiveTime`: `lastActiveTime` starts at 0 and the
guard `if (lastActiveTime && gap < maxIdleTime)` tests JavaScript truthiness,
that is `lastActiveTime ≠ 0`. -/
def activeTimeGo : List ActivityEvent → Int → Int → Int
  | [], _, acc => acc
  | e :: rest, lastActiveTime, acc =>
    if isActiveType e.type then
      activeTimeGo rest e.timestamp
        (if lastActiveTime ≠ 0 ∧ e.timestamp - lastActiveTime < maxIdleTime then
          acc + (e.timestamp - lastActiveTime)
        else acc)
    else
      activeTimeGo rest lastActiveTime acc

/-- `DataManager.calculateActiveTime`: sort by timestamp, then accumulate
gaps between consecutive active-type events that are under the threshold. -/
def calculateActiveTime (events : List ActivityEvent) : Int :=
  activeTimeGo (sortEvents events) 0 0

/-- Filter used by `calculateCodingTime`
(`[FILE_EDIT, FILE_SAVE].includes(e.type)`). -/
def isCodingType (t : ActivityType) : Bool :=
  decide (t ∈ [ActivityType.fileEdit, ActivityType.fileSave])

/-- `DataManager.calculateCodingTime`: the active-time computation on the
edit/save subsequence. -/
def calculateCodingTime (events : List ActivityEvent) : Int :=
  calculateActiveTime (events.filter (fun e => isCodingType e.type))

/-- Loop body of `calculateDebugTime`: `debugStart` starts at 0 and the stop
branch guard `event.type === DEBUG_STOP && debugStart` tests truthiness of
the saved start timestamp. -/
def debugTimeGo : List ActivityEvent → Int → Int → Int
  | [], _, acc => acc
  | e :: rest, debugStart, acc =>
    if e.type = ActivityType.debugStart then
      debugTimeGo rest e.timestamp acc
    else if e.type = ActivityType.debugStop ∧ debugStart ≠ 0 then
      debugTimeGo rest 0 (acc + (e.timestamp - debugStart))
    else
      debugTimeGo rest debugStart acc

/-- `DataManager.calculateDebugTime`. -/
def calculateDebugTime (events : List ActivityEvent) : Int :=
  debugTimeGo (sortEvents events) 0 0

/-- Per-type weight table of `calculateProductivityScore`. -/
def weight : ActivityType → Nat
  | .fileEdit => 3
  | .fileSave => 2
  | .fileCreate => 4
  | .debugStart => 2
  | .gitCommit => 5
  | .commandExecute => 1
  | .fileOpen => 1
  | .fileClose => 0
  | .fileSwitch => 1
  | .fileDelete => 1
  | .fileRename => 1
  | .debugStop => 0
  | .debugBreakpoint => 1
  | .terminalOpen => 1
  | .terminalClose => 0
  | .extensionInstall => 1
  | .extensionUninstall => 0
  | .workspaceOpen => 0
  | .workspaceClose => 0
  | .focusGained => 0
  | .focusLost => 0
  | .taskStart => 2
  | .taskEnd => 1
  | .gitPush => 3
  | .gitPull => 2
  | .searchPerformed => 1

/-- `DataManager.calculateProductivityScore`: 0 on an empty slice, otherwise
`Math.min(100, Math.round(score / (events.length * 5) * 100))` where `score`
is the sum of the per-type weights. -/
def calculateProductivityScore (events : List ActivityEvent) : Int :=
  if events.length = 0 then 0
  else
    let score : Nat := (events.map (fun e => weight e.type)).sum
    let maxPossibleScore : Nat := events.length * 5
    min 100 (round ((score : ℚ) / (maxPossibleScore : ℚ) * 100))

/-- Loop body of `calculateStreakData`: the source iterates the daily
histogram from index `length - 1` down to 0; here the reversed list is
consumed with `isLast` marking the iteration at index `length - 1`. -/
def streakLoop : List Nat → Bool → Nat × Nat × Nat → Nat × Nat × Nat
  | [], _, st => st
  | d :: rest, isLast, (cur, long, temp) =>
    if 0 < d then
      streakLoop rest false (if isLast then temp + 1 else cur, long, temp + 1)
    else
      streakLoop rest false (if isLast then 0 else cur, if long < temp then temp else long, 0)

/-- `DataManager.calculateStreakData` on a daily histogram given as the list
of per-day event counts in ascending date order (the shape produced by
`getDailyActivity`, whose trailing sort is by date); returns
`(current, longest)`. -/
def calculateStreakData (daily : List Nat) : Nat × Nat :=
  let st := streakLoop daily.reverse true (0, 0, 0)
  (st.1, max st.2.1 st.2.2)

end DataManager

namespace ActivityTracker

/-- Edit type of an emitted `FILE_EDIT` event (types.ts, `editType`). -/
inductive EditType where
  | insert
  | delete
  | replace
  deriving DecidableEq, Repr

/-- Per-file coalescing buffer entry (activityTracker.ts, `editBuffer`). -/
structure EditBufferEntry where
  added : Nat
  deleted : Nat
  edits : Nat
  deriving DecidableEq, Repr

/-- One raw content change of an edit notification. -/
structure ContentChange where
  rangeLength : Nat
  textLength : Nat
  deriving DecidableEq, Repr

/-- `ActivityTracker.updateEditBuffer`: fold the changes into the buffer
entry for the file (created as zeros when absent). -/
def updateEditBuffer (buffer : Option EditBufferEntry) (changes : List ContentChange) :
    EditBufferEntry :=
  changes.foldl
    (fun b c =>
      { b with
        deleted := b.deleted + c.rangeLength
        added := b.added + c.textLength
        edits := b.edits + 1 })
    (buffer.getD ⟨0, 0, 0⟩)

/-- The aggregate fields of the emitted `FILE_EDIT` payload. -/
structure EmittedEdit where
  charactersAdded : Nat
  charactersDeleted : Nat
  editType : EditType
  deriving DecidableEq, Repr

/-- `ActivityTracker.flushEditBuffer`: drop the entry without emitting when
the buffer is absent or both counts are zero, or when the document is no
longer open (`docPresent = false`); otherwise emit one event whose edit type
is `replace` if both counts are nonzero, else `insert` if additions are
nonzero, else `delete`. -/
def flushEditBuffer (buffer : Option EditBufferEntry) (docPresent : Bool) :
    Option EmittedEdit :=
  match buffer with
  | none => none
  | some b =>
    if b.added = 0 ∧ b.deleted = 0 then none
    else if docPresent = false then none
    else
      some
        { charactersAdded := b.added
          charactersDeleted := b.deleted
          editType :=
            if 0 < b.added ∧ 0 < b.deleted then .replace
            else if 0 < b.added then .insert
            else .delete }

end ActivityTracker

/-- Shape of a sync result object (`{success, message?, error?}`). -/
structure SyncResult where
  success : Bool
  message : Option String
  error : Option String
  deriving DecidableEq, Repr

/-- Expected remote response body (`{success: bool, error?: string}`). -/
structure RemoteResponse where
  success : Bool
  error : Option String
  deriving DecidableEq, Repr

/-- `ApiClient.syncActivityData` (apiClient.ts): without a session token it
returns a structured not-authenticated failure without touching the network;
otherwise it forwards the remote response body, re-throwing a wire error
(modelled as propagating `Except.error`). -/
def syncActivityData (hasToken : Bool) (remote : Except String RemoteResponse) :
    Except String SyncResult :=
  if hasToken = false then .ok ⟨false, none, some "Not authenticated"⟩
  else
    match remote with
    | .ok r => .ok ⟨r.success, none, r.error⟩
    | .error e => .error e

/-- Observable outcome of one `syncDataWithAPI` call: the returned result,
the watermark afterwards, and whether an HTTP request was attempted. -/
structure SyncOutcome where
  result : SyncResult
  lastSyncTime : Int
  networkCalled : Bool
  deriving DecidableEq, Repr

/-- `DataManager.syncDataWithAPI` (dataManager.ts): config guard, watermark
selection (`timestamp > lastSyncTime`, `startTime > lastSyncTime`), the
no-new-data short-circuit, the API call, the success-only watermark advance
to `Date.now()`, and the surrounding catch that converts a thrown error into
a structured failure. -/
def syncDataWithAPI (syncEnabled hasToken : Bool) (remote : Except String RemoteResponse)
    (lastSyncTime : Int) (events : List ActivityEvent) (sessions : List SessionData)
    (now : Int) : SyncOutcome :=
  if syncEnabled = false then ⟨⟨false, some "Sync not enabled", none⟩, lastSyncTime, false⟩
  else
    let eventsToSync := events.filter (fun e => decide (lastSyncTime < e.timestamp))
    let sessionsToSync := sessions.filter (fun s => decide (lastSyncTime < s.startTime))
    if eventsToSync.isEmpty ∧ sessionsToSync.isEmpty then
      ⟨⟨true, some "No new data to sync", none⟩, lastSyncTime, false⟩
    else
      match syncActivityData hasToken remote with
      | .ok result => ⟨result, if result.success then now else lastSyncTime, hasToken⟩
      | .error e => ⟨⟨false, none, some e⟩, lastSyncTime, hasToken⟩

/-- Modelled from the spec: the gap credited between two consecutive
qualifying timestamps, counted exactly when it is strictly below the
5-minute idle threshold. -/
def gapContrib (a b : Int) : Int :=
  if b - a < DataManager.maxIdleTime then b - a else 0

/-- Modelled from the spec: total credited time over a timestamp-sorted list
of qualifying timestamps, one contribution per consecutive pair. -/
def gapSum : List Int → Int
  | [] => 0
  | [_] => 0
  | a :: b :: rest => gapContrib a b + gapSum (b :: rest)

/-- Modelled from the spec: debug start/stop pairing with an explicit
optional open start instead of the 0 sentinel; each start (re)opens the
accumulator, a stop closes an open start and adds the delta, a stop with no
open start is ignored, a trailing open start contributes nothing. -/
def debugPairs : List ActivityEvent → Option Int → Int
  | [], _ => 0
  | e :: rest, openStart =>
    if e.type = ActivityType.debugStart then debugPairs rest (some e.timestamp)
    else if e.type = ActivityType.debugStop then
      match openStart with
      | some s => (e.timestamp - s) + debugPairs rest none
      | none => debugPairs rest none
    else debugPairs rest openStart

/-- Modelled from the spec: the debug-time pairing applied to the
timestamp-sorted event list. -/
def debugTimeSpec (events : List ActivityEvent) : Int :=
  debugPairs (DataManager.sortEvents events) none

/-- All timestamps in the list are positive (as epoch-millisecond stamps
produced by `Date.now()` are). -/
def allPositive (l : List ActivityEvent) : Bool :=
  l.all (fun e => decide (0 < e.timestamp))

/-- Every stored event is at or below the sync watermark. -/
def allSyncedEvents (w : Int) (events : List ActivityEvent) : Bool :=
  events.all (fun e => decide (e.timestamp ≤ w))

/-- Every stored session started at or below the sync watermark. -/
def allSyncedSessions (w : Int) (sessions : List SessionData) : Bool :=
  sessions.all (fun s => decide (s.startTime ≤ w))

/-- There is at least one event or session newer than the watermark. -/
def hasUnsynced (w : Int) (events : List ActivityEvent) (sessions : List SessionData) : Bool :=
  !((events.filter (fun e => decide (w < e.timestamp))).isEmpty
      && (sessions.filter (fun s => decide (w < s.startTime))).isEmpty)

/-- A sync attempt reaching the API stage fails: the token is missing, the
wire errors out, or the remote reports failure. -/
def syncFails (hasToken : Bool) (remote : Except String RemoteResponse) : Bool :=
  !hasToken
    || (match remote with
        | .error _ => true
        | .ok r => !r.success)

/-- Helper to build a bare event. -/
def mkEvent (t : Int) (ty : ActivityType) : ActivityEvent :=
  ⟨"e" ++ toString t, t, ty, "s1"⟩

/-- The spec's active-time vector as written: active-type events at t = 0,
60000 and 400000. -/
def exActiveZero : List ActivityEvent :=
  [mkEvent 0 .fileEdit, mkEvent 60000 .fileEdit, mkEvent 400000 .fileEdit]

/-- The active-time vector shifted to positive timestamps. -/
def exActivePos : List ActivityEvent :=
  [mkEvent 1 .fileEdit, mkEvent 60001 .fileEdit, mkEvent 400001 .fileEdit]

/-- The spec's debug vector as written: start at t = 0, stop at t = 120000. -/
def exDebugZero : List ActivityEvent :=
  [mkEvent 0 .debugStart, mkEvent 120000 .debugStop]

/-- The debug vector shifted to positive timestamps, with a lone trailing
start appended. -/
def exDebugPos : List ActivityEvent :=
  [mkEvent 1 .debugStart, mkEvent 120001 .debugStop, mkEvent 200000 .debugStart]

/-- A small mixed event list with positive timestamps. -/
def exMixed : List ActivityEvent :=
  [mkEvent 1 .fileEdit, mkEvent 100 .fileSwitch, mkEvent 200 .fileEdit,
   mkEvent 400000 .fileSave, mkEvent 400100 .fileEdit]

/-- A concrete event used by the log-bound witnesses. -/
def exEvent : ActivityEvent := mkEvent 77 .fileEdit

/-! ### Helper lemmas -/

open DataManager ActivityTracker

theorem addEvent_eq (events : List ActivityEvent) (e : ActivityEvent) :
    addEvent events e =
      if maxEvents < (events ++ [e]).length then
        (events ++ [e]).drop ((events ++ [e]).length - maxEvents * 8 / 10)
      else events ++ [e] := rfl

theorem truncTarget_eq : maxEvents * 8 / 10 = 40000 := by norm_num [maxEvents]

theorem addEvent_getLast (events : List ActivityEvent) (e : ActivityEvent) :
    (addEvent events e).getLast? = some e := by
  rw [addEvent_eq]
  split_ifs with h
  · have hk : (events ++ [e]).length - maxEvents * 8 / 10 ≤ events.length := by
      rw [truncTarget_eq] at *
      simp only [List.length_append, List.length_cons, List.length_nil] at h ⊢
      omega
    rw [List.drop_append_of_le_length hk, List.getLast?_concat]
  · exact List.getLast?_concat _

/-! ### Claim C4 -/

/-- C4: after every `addEvent`, the log holds at most the configured maximum
of 50,000 events; whenever the pushed log exceeds the maximum it is cut to
exactly the most recent 40,000 events (a suffix of the pushed log, so the
oldest are dropped and relative order is preserved), and the just-appended
event is always the last element. -/
theorem claim4_addEvent_bounds (events : List ActivityEvent) (e : ActivityEvent) :
    (addEvent events e).length ≤ maxEvents
    ∧ (maxEvents < (events ++ [e]).length → (addEvent events e).length = 40000)
    ∧ (addEvent events e) <:+ (events ++ [e])
    ∧ (addEvent events e).getLast? = some e := by
  refine ⟨?_, ?_, ?_, addEvent_getLast events e⟩
  · rw [addEvent_eq]
    split_ifs with h
    · rw [List.length_drop, truncTarget_eq]
      simp only [maxEvents] at h ⊢
      omega
    · omega
  · intro h
    rw [addEvent_eq, if_pos h, List.length_drop, truncTarget_eq]
    simp only [maxEvents, List.length_append, List.length_cons, List.length_nil] at h ⊢
    omega
  · rw [addEvent_eq]
    split_ifs with h
    · exact List.drop_suffix _ _
    · exact List.suffix_refl _

/-- Witness for C4 at a log already at the 50,000-event cap. -/
theorem claim4_witness :
    maxEvents < (List.replicate 50000 exEvent ++ [exEvent]).length
    ∧ ((addEvent (List.replicate 50000 exEvent) exEvent).length ≤ maxEvents
      ∧ (maxEvents < (List.replicate 50000 exEvent ++ [exEvent]).length →
          (addEvent (List.replicate 50000 exEvent) exEvent).length = 40000)
      ∧ (addEvent (List.replicate 50000 exEvent) exEvent)
          <:+ (List.replicate 50000 exEvent ++ [exEvent])
      ∧ (addEvent (List.replicate 50000 exEvent) exEvent).getLast? = some exEvent) :=
  ⟨by rw [List.length_append, List.length_replicate]; norm_num [maxEvents],
    claim4_addEvent_bounds (List.replicate 50000 exEvent) exEvent⟩

/-! ### Claim C8 -/

/-- C8: `getEvents` returns exactly the stored events whose timestamp lies
within the optional inclusive bounds, as a single order-preserving filter of
the log (so the log's append order is kept and the log itself is untouched);
with no bounds it returns the log unchanged, and after `addEvent` the
appended event is the last element of an unbounded query. -/
theorem claim8_getEvents_filter (events : List ActivityEvent) (s t : Option Int)
    (e : ActivityEvent) :
    getEvents events s t = events.filter (fun ev =>
        (match s with
          | some a => decide (a ≤ ev.timestamp)
          | none => true)
        && (match t with
          | some b => decide (ev.timestamp ≤ b)
          | none => true))
    ∧ getEvents events none none = events
    ∧ (getEvents (addEvent events e) none none).getLast? = some e := by
  refine ⟨?_, by simp [getEvents], by simpa [getEvents] using addEvent_getLast events e⟩
  cases s <;> cases t <;>
    simp [getEvents, List.filter_filter, Bool.and_comm]

/-! ### Claim C9 -/

/-- C9: when a flush emits a FILE_EDIT event, its edit type is derived from
the buffered aggregate: `replace` exactly when both character counts are
nonzero, `insert` exactly when only additions are nonzero, `delete` exactly
when only deletions are nonzero; and a buffer entry with both counts zero is
dropped without emitting an event. -/
theorem claim9_flushEditBuffer (b bz : EditBufferEntry) (dp dpz : Bool) (ev : EmittedEdit)
    (hemit : flushEditBuffer (some b) dp = some ev)
    (hza : bz.added = 0) (hzd : bz.deleted = 0) :
    ((ev.editType = EditType.replace ↔ 0 < b.added ∧ 0 < b.deleted)
      ∧ (ev.editType = EditType.insert ↔ 0 < b.added ∧ b.deleted = 0)
      ∧ (ev.editType = EditType.delete ↔ b.added = 0 ∧ 0 < b.deleted))
    ∧ flushEditBuffer (some bz) dpz = none := by
  constructor
  · cases dp with
    | false =>
      simp only [flushEditBuffer] at hemit
      split_ifs at hemit
    | true =>
      rcases Nat.eq_zero_or_pos b.added with ha | ha <;>
        rcases Nat.eq_zero_or_pos b.deleted with hd | hd
      · simp [flushEditBuffer, ha, hd] at hemit
      · have heq : flushEditBuffer (some b) true =
            some ⟨b.added, b.deleted, EditType.delete⟩ := by
          simp [flushEditBuffer, ha, Nat.pos_iff_ne_zero.mp hd]
        rw [heq] at hemit
        injection hemit with hev
        subst hev
        simp [ha, hd]
      · have heq : flushEditBuffer (some b) true =
            some ⟨b.added, b.deleted, EditType.insert⟩ := by
          simp [flushEditBuffer, hd, Nat.pos_iff_ne_zero.mp ha, ha]
        rw [heq] at hemit
        injection hemit with hev
        subst hev
        simp [ha, hd, Nat.pos_iff_ne_zero.mp ha]
      · have heq : flushEditBuffer (some b) true =
            some ⟨b.added, b.deleted, EditType.replace⟩ := by
          simp [flushEditBuffer, ha, hd, Nat.pos_iff_ne_zero.mp ha]
        rw [heq] at hemit
        injection hemit with hev
        subst hev
        simp [ha, hd, Nat.pos_iff_ne_zero.mp ha, Nat.pos_iff_ne_zero.mp hd]
  · simp [flushEditBuffer, hza, hzd]

/-- Witness for C9 at a buffer with one added and two deleted characters,
and at the all-zero buffer. -/
theorem claim9_witness :
    flushEditBuffer (some ⟨1, 2, 1⟩) true = some ⟨1, 2, EditType.replace⟩
    ∧ (⟨0, 0, 3⟩ : EditBufferEntry).added = 0
    ∧ (⟨0, 0, 3⟩ : EditBufferEntry).deleted = 0
    ∧ ((((⟨1, 2, EditType.replace⟩ : EmittedEdit).editType = EditType.replace ↔
          0 < (⟨1, 2, 1⟩ : EditBufferEntry).added ∧ 0 < (⟨1, 2, 1⟩ : EditBufferEntry).deleted)
        ∧ ((⟨1, 2, EditType.replace⟩ : EmittedEdit).editType = EditType.insert ↔
          0 < (⟨1, 2, 1⟩ : EditBufferEntry).added ∧ (⟨1, 2, 1⟩ : EditBufferEntry).deleted = 0)
        ∧ ((⟨1, 2, EditType.replace⟩ : EmittedEdit).editType = EditType.delete ↔
          (⟨1, 2, 1⟩ : EditBufferEntry).added = 0 ∧ 0 < (⟨1, 2, 1⟩ : EditBufferEntry).deleted))
      ∧ flushEditBuffer (some ⟨0, 0, 3⟩) false = none) :=
  ⟨by decide, rfl, rfl,
    claim9_flushEditBuffer ⟨1, 2, 1⟩ ⟨0, 0, 3⟩ true false ⟨1, 2, EditType.replace⟩
      (by decide) rfl rfl⟩

/-! ### Claim C7 -/

/-- C7: the productivity score is 0 on the empty slice and lies in the
closed interval [0, 100] on every nonempty slice. -/
theorem claim7_productivityScore (l : List ActivityEvent) (h : l ≠ []) :
    calculateProductivityScore [] = 0
    ∧ 0 ≤ calculateProductivityScore l
    ∧ calculateProductivityScore l ≤ 100 := by
  refine ⟨rfl, ?_, ?_⟩
  · rw [calculateProductivityScore, if_neg (by simpa [List.length_eq_zero] using h)]
    refine le_min (by norm_num) ?_
    rw [round_eq]
    refine Int.floor_nonneg.mpr ?_
    have hq : (0 : ℚ) ≤
        ((((l.map (fun e => weight e.type)).sum : Nat) : ℚ) / ((l.length * 5 : Nat) : ℚ) * 100) := by
      positivity
    linarith
  · rw [calculateProductivityScore, if_neg (by simpa [List.length_eq_zero] using h)]
    exact min_le_left _ _

/-- Witness for C7 at a one-edit slice. -/
theorem claim7_witness :
    ([exEvent] : List ActivityEvent) ≠ []
    ∧ (calculateProductivityScore [] = 0
      ∧ 0 ≤ calculateProductivityScore [exEvent]
      ∧ calculateProductivityScore [exEvent] ≤ 100) :=
  ⟨by simp, claim7_productivityScore [exEvent] (by simp)⟩

/-! ### Claim C1 -/

theorem streakLoop_fst (l : List Nat) :
    ∀ st : Nat × Nat × Nat, (streakLoop l false st).1 = st.1 := by
  induction l with
  | nil => intro st; rfl
  | cons d rest ih =>
    intro st
    obtain ⟨c, lg, t⟩ := st
    by_cases hd : 0 < d <;> simp [streakLoop, hd, ih]

/-- C1 (code evaluation): on the daily histogram with events on exactly the
most recent 3 consecutive days, `calculateStreakData` returns current
streak 1 and longest streak 3, not current streak 3 as claimed; indeed the
returned current streak never exceeds 1 for any histogram, because the
source assigns `currentStreak` only on the loop iteration at the most
recent day. -/
theorem claim1_streak_eval :
    calculateStreakData [0, 0, 0, 0, 1, 1, 1] = (1, 3)
    ∧ ∀ daily : List Nat, (calculateStreakData daily).1 ≤ 1 := by
  refine ⟨by decide, ?_⟩
  intro daily
  rw [calculateStreakData]
  cases hrev : daily.reverse with
  | nil => simp [streakLoop]
  | cons d rest =>
    by_cases hd : 0 < d <;> simp [streakLoop, hd, streakLoop_fst]

/-! ### Claim C5 -/

/-- C5 counterexample: with sync disabled in configuration (the default),
the watermark premise of the claim holds vacuously (empty log), yet the
call returns a failure result carrying the "Sync not enabled" message, not
a success with the no-new-data message. -/
theorem claim5_counterexample :
    (syncDataWithAPI false true (Except.ok ⟨true, none⟩) 0 [] [] 5).result.success = false
    ∧ (syncDataWithAPI false true (Except.ok ⟨true, none⟩) 0 [] [] 5).result.message
        = some "Sync not enabled" := ⟨rfl, rfl⟩

/-- C5 (amended with the sync-enabled configuration guard): when sync is
enabled, every stored event is at or below the watermark and every stored
session started at or below it, `syncDataWithAPI` returns the success
result with the no-new-data message, leaves the watermark unchanged and
makes no network call. -/
theorem claim5_no_new_data (hasToken : Bool) (remote : Except String RemoteResponse)
    (w now : Int) (events : List ActivityEvent) (sessions : List SessionData)
    (he : allSyncedEvents w events = true) (hs : allSyncedSessions w sessions = true) :
    syncDataWithAPI true hasToken remote w events sessions now =
      ⟨⟨true, some "No new data to sync", none⟩, w, false⟩ := by
  have he2 : events.filter (fun e => decide (w < e.timestamp)) = [] := by
    rw [List.filter_eq_nil_iff]
    intro a ha
    have := (List.all_eq_true.mp he) a ha
    simp only [decide_eq_true_iff] at this ⊢
    omega
  have hs2 : sessions.filter (fun s => decide (w < s.startTime)) = [] := by
    rw [List.filter_eq_nil_iff]
    intro a ha
    have := (List.all_eq_true.mp hs) a ha
    simp only [decide_eq_true_iff] at this ⊢
    omega
  simp [syncDataWithAPI, he2, hs2]

/-- Witness for C5 with one already-synced event below the watermark. -/
theorem claim5_witness :
    allSyncedEvents 5 [mkEvent 3 .fileEdit] = true
    ∧ allSyncedSessions 5 [] = true
    ∧ syncDataWithAPI true true (Except.ok ⟨true, none⟩) 5 [mkEvent 3 .fileEdit] [] 99 =
        ⟨⟨true, some "No new data to sync", none⟩, 5, false⟩ :=
  ⟨by decide, by decide,
    claim5_no_new_data true (Except.ok ⟨true, none⟩) 5 99 [mkEvent 3 .fileEdit] []
      (by decide) (by decide)⟩

/-! ### Claim C6 -/

/-- C6: the watermark either stays where it was or is advanced to the
current time with the returned result reporting success (so it is advanced
only on remote-confirmed success); and every sync attempt that reaches the
API stage and fails (missing token, wire error, or remote failure) yields a
structured failure result with the watermark unchanged. -/
theorem claim6_sync_failure (enabled hasToken : Bool) (remote : Except String RemoteResponse)
    (w now : Int) (events : List ActivityEvent) (sessions : List SessionData) :
    ((syncDataWithAPI enabled hasToken remote w events sessions now).lastSyncTime = w
      ∨ ((syncDataWithAPI enabled hasToken remote w events sessions now).lastSyncTime = now
        ∧ (syncDataWithAPI enabled hasToken remote w events sessions now).result.success = true))
    ∧ (enabled = true → hasUnsynced w events sessions = true →
        syncFails hasToken remote = true →
        (syncDataWithAPI enabled hasToken remote w events sessions now).result.success = false
        ∧ (syncDataWithAPI enabled hasToken remote w events sessions now).lastSyncTime = w) := by
  cases enabled with
  | false => simp [syncDataWithAPI]
  | true =>
    by_cases hemp : (events.filter (fun e => decide (w < e.timestamp))).isEmpty
        ∧ (sessions.filter (fun s => decide (w < s.startTime))).isEmpty
    · constructor
      · left
        simp [syncDataWithAPI, hemp]
      · intro _ hnew _
        unfold hasUnsynced at hnew
        rw [hemp.1, hemp.2] at hnew
        simp at hnew
    · cases hasToken with
      | false =>
        have hout : syncDataWithAPI true false remote w events sessions now =
            ⟨⟨false, none, some "Not authenticated"⟩, w, false⟩ := by
          simp only [syncDataWithAPI, syncActivityData]
          rw [if_neg (by decide), if_neg hemp]
          rfl
        rw [hout]
        exact ⟨Or.inl rfl, fun _ _ _ => ⟨rfl, rfl⟩⟩
      | true =>
        cases remote with
        | error msg =>
          have hout : syncDataWithAPI true true (Except.error msg) w events sessions now =
              ⟨⟨false, none, some msg⟩, w, true⟩ := by
            simp only [syncDataWithAPI, syncActivityData]
            rw [if_neg (by decide), if_neg hemp]
            rfl
          rw [hout]
          exact ⟨Or.inl rfl, fun _ _ _ => ⟨rfl, rfl⟩⟩
        | ok r =>
          cases hr : r.success with
          | false =>
            have hout : syncDataWithAPI true true (Except.ok r) w events sessions now =
                ⟨⟨false, none, r.error⟩, w, true⟩ := by
              simp only [syncDataWithAPI, syncActivityData]
              rw [if_neg (by decide), if_neg hemp]
              simp [hr]
            rw [hout]
            exact ⟨Or.inl rfl, fun _ _ _ => ⟨rfl, rfl⟩⟩
          | true =>
            have hout : syncDataWithAPI true true (Except.ok r) w events sessions now =
                ⟨⟨true, none, r.error⟩, now, true⟩ := by
              simp only [syncDataWithAPI, syncActivityData]
              rw [if_neg (by decide), if_neg hemp]
              simp [hr]
            rw [hout]
            refine ⟨Or.inr ⟨rfl, rfl⟩, fun _ _ hfail => ?_⟩
            unfold syncFails at hfail
            simp [hr] at hfail

/-- Witness for C6: an enabled attempt with one unsynced event and a
missing session token. -/
theorem claim6_witness :
    hasUnsynced 0 [mkEvent 5 .fileEdit] [] = true
    ∧ syncFails false (Except.ok ⟨true, none⟩) = true
    ∧ ((syncDataWithAPI true false (Except.ok ⟨true, none⟩) 0 [mkEvent 5 .fileEdit] [] 9).result.success = false
      ∧ (syncDataWithAPI true false (Except.ok ⟨true, none⟩) 0 [mkEvent 5 .fileEdit] [] 9).lastSyncTime = 0) :=
  ⟨by decide, by decide,
    (claim6_sync_failure true false (Except.ok ⟨true, none⟩) 0 9 [mkEvent 5 .fileEdit] []).2
      rfl (by decide) (by decide)⟩

/-! ### Gap-sum machinery for claims C2, C3 and C10 -/

theorem gapContrib_nonneg {a b : Int} (h : a ≤ b) : 0 ≤ gapContrib a b := by
  unfold gapContrib
  split <;> omega

theorem gapContrib_triangle {a b c : Int} (hab : a ≤ b) (hbc : b ≤ c) :
    gapContrib a c ≤ gapContrib a b + gapContrib b c := by
  unfold gapContrib
  split_ifs <;> omega

theorem gapSum_cons_ge (a : Int) (t : List Int) (h : ∀ c ∈ t, a ≤ c) :
    gapSum t ≤ gapSum (a :: t) := by
  cases t with
  | nil => simp [gapSum]
  | cons b r =>
    have hg := gapContrib_nonneg (h b (by simp))
    show gapSum (b :: r) ≤ gapContrib a b + gapSum (b :: r)
    omega

theorem gapSum_anchor {a b : Int} (t : List Int) (hab : a ≤ b) (hbt : ∀ c ∈ t, b ≤ c) :
    gapSum (a :: t) ≤ gapContrib a b + gapSum (b :: t) := by
  cases t with
  | nil =>
    have := gapContrib_nonneg hab
    simp [gapSum]
    omega
  | cons c r =>
    have hbc : b ≤ c := hbt c (by simp)
    have htri := gapContrib_triangle hab hbc
    show gapContrib a c + gapSum (c :: r) ≤ gapContrib a b + gapSum (b :: c :: r)
    show gapContrib a c + gapSum (c :: r) ≤ gapContrib a b + (gapContrib b c + gapSum (c :: r))
    omega

theorem gapSum_cons_le_of_sublist (a : Int) (t : List Int) :
    ∀ s : List Int, s.Sublist t → (a :: t).Sorted (· ≤ ·) →
      gapSum (a :: s) ≤ gapSum (a :: t) := by
  induction t generalizing a with
  | nil =>
    intro s hs _
    rw [List.sublist_nil.mp hs]
  | cons b t2 ih =>
    intro s hs hsort
    have hab : a ≤ b := (List.sorted_cons.mp hsort).1 b (by simp)
    have hsortb : (b :: t2).Sorted (· ≤ ·) := (List.sorted_cons.mp hsort).2
    have hbt : ∀ c ∈ t2, b ≤ c := (List.sorted_cons.mp hsortb).1
    cases hs with
    | cons _ hs2 =>
      have hsort2 : (a :: t2).Sorted (· ≤ ·) :=
        hsort.sublist (((List.Sublist.refl t2).cons b).cons₂ a)
      calc gapSum (a :: s) ≤ gapSum (a :: t2) := ih a s hs2 hsort2
        _ ≤ gapContrib a b + gapSum (b :: t2) := gapSum_anchor t2 hab hbt
        _ = gapSum (a :: b :: t2) := rfl
    | cons₂ _ hs2 =>
      rename_i s2
      have h1 := ih b s2 hs2 hsortb
      show gapContrib a b + gapSum (b :: s2) ≤ gapContrib a b + gapSum (b :: t2)
      omega

theorem gapSum_le_of_sublist (t : List Int) :
    ∀ s : List Int, s.Sublist t → t.Sorted (· ≤ ·) → gapSum s ≤ gapSum t := by
  induction t with
  | nil =>
    intro s hs _
    rw [List.sublist_nil.mp hs]
  | cons b t2 ih =>
    intro s hs hsort
    have hsort2 : t2.Sorted (· ≤ ·) := (List.sorted_cons.mp hsort).2
    cases hs with
    | cons _ hs2 =>
      calc gapSum s ≤ gapSum t2 := ih s hs2 hsort2
        _ ≤ gapSum (b :: t2) := gapSum_cons_ge b t2 (List.sorted_cons.mp hsort).1
    | cons₂ _ hs2 => exact gapSum_cons_le_of_sublist b t2 _ hs2 hsort

/-! ### Characterization of the active-time fold -/

theorem sortEvents_perm (l : List ActivityEvent) : (sortEvents l).Perm l :=
  List.perm_insertionSort byTimestamp l

theorem sortEvents_sorted (l : List ActivityEvent) : (sortEvents l).Sorted byTimestamp :=
  List.sorted_insertionSort byTimestamp l

theorem sorted_map_timestamp {l : List ActivityEvent} (h : l.Sorted byTimestamp) :
    (l.map ActivityEvent.timestamp).Sorted (· ≤ ·) :=
  List.Pairwise.map _ (fun _ _ hab => hab) h

theorem activeTimeGo_filter (l : List ActivityEvent) :
    ∀ last acc, activeTimeGo l last acc
      = activeTimeGo (l.filter (fun e => isActiveType e.type)) last acc := by
  induction l with
  | nil => intro last acc; rfl
  | cons e rest ih =>
    intro last acc
    by_cases he : isActiveType e.type = true
    · simp only [List.filter_cons, he, if_true, activeTimeGo]
      exact ih _ _
    · simp only [List.filter_cons, he, if_false, activeTimeGo, Bool.false_eq_true]
      exact ih _ _

theorem activeTimeGo_gapSum_pos (l : List ActivityEvent) :
    (∀ e ∈ l, isActiveType e.type = true) → (∀ e ∈ l, 0 < e.timestamp) →
    ∀ (last acc : Int), 0 < last →
      activeTimeGo l last acc = acc + gapSum (last :: l.map ActivityEvent.timestamp) := by
  induction l with
  | nil =>
    intro _ _ last acc _
    simp [activeTimeGo, gapSum]
  | cons e rest ih =>
    intro hall hpos last acc hlast
    have he : isActiveType e.type = true := hall e (by simp)
    have hepos : 0 < e.timestamp := hpos e (by simp)
    have hallr : ∀ x ∈ rest, isActiveType x.type = true := fun x hx => hall x (by simp [hx])
    have hrest : ∀ x ∈ rest, 0 < x.timestamp := fun x hx => hpos x (by simp [hx])
    simp only [activeTimeGo, he, if_true]
    rw [ih hallr hrest e.timestamp _ hepos]
    have hne : last ≠ 0 := by omega
    show _ = acc +
      (gapContrib last e.timestamp + gapSum (e.timestamp :: rest.map ActivityEvent.timestamp))
    unfold gapContrib
    by_cases hg : e.timestamp - last < maxIdleTime
    · rw [if_pos ⟨hne, hg⟩, if_pos hg]
      omega
    · rw [if_neg (fun hc => hg hc.2), if_neg hg]
      omega

theorem activeTimeGo_gapSum_zero (l : List ActivityEvent)
    (hall : ∀ e ∈ l, isActiveType e.type = true) (hpos : ∀ e ∈ l, 0 < e.timestamp)
    (acc : Int) :
    activeTimeGo l 0 acc = acc + gapSum (l.map ActivityEvent.timestamp) := by
  cases l with
  | nil => simp [activeTimeGo, gapSum]
  | cons e rest =>
    have he : isActiveType e.type = true := hall e (by simp)
    have hepos : 0 < e.timestamp := hpos e (by simp)
    have hallr : ∀ x ∈ rest, isActiveType x.type = true := fun x hx => hall x (by simp [hx])
    have hrest : ∀ x ∈ rest, 0 < x.timestamp := fun x hx => hpos x (by simp [hx])
    simp only [activeTimeGo, he, if_true]
    rw [if_neg (fun hc => hc.1 rfl)]
    rw [activeTimeGo_gapSum_pos rest hallr hrest e.timestamp acc hepos]
    rfl

theorem calculateActiveTime_gapSum (l : List ActivityEvent)
    (hpos : ∀ e ∈ l, 0 < e.timestamp) :
    calculateActiveTime l =
      gapSum (((sortEvents l).filter (fun e => isActiveType e.type)).map
        ActivityEvent.timestamp) := by
  unfold calculateActiveTime
  rw [activeTimeGo_filter]
  rw [activeTimeGo_gapSum_zero _ ?_ ?_ 0]
  · rw [zero_add]
  · intro e he
    exact (List.mem_filter.mp he).2
  · intro e he
    exact hpos e ((sortEvents_perm l).subset (List.mem_of_mem_filter he))

/-! ### Claim C2 -/

/-- C2 counterexample: active-type events at t = 0, 60000 and 400000 yield
active time 0, not the claimed 60000 — the event at timestamp 0 is
indistinguishable from the 0 sentinel meaning "no previous active event",
so the 60-second gap is never credited. -/
theorem claim2_counterexample :
    calculateActiveTime exActiveZero = 0
    ∧ calculateActiveTime exActiveZero ≠ 60000 := by decide

/-- C2 (amended to positive timestamps, as epoch-millisecond stamps always
are): the active time equals the sum, over consecutive pairs of the
timestamp-sorted qualifying (active-type) events, of exactly those gaps
strictly below the 5-minute idle threshold — gaps at or above the
threshold contribute zero. -/
theorem claim2_active_time (l : List ActivityEvent) (h : allPositive l = true) :
    calculateActiveTime l =
      gapSum (((sortEvents l).filter (fun e => isActiveType e.type)).map
        ActivityEvent.timestamp) := by
  apply calculateActiveTime_gapSum
  intro e he
  exact decide_eq_true_iff.mp ((List.all_eq_true.mp h) e he)

/-- Witness for C2 on the shifted vector t = 1, 60001, 400001: only the
first gap (60000 ms, below the threshold) is credited. -/
theorem claim2_witness :
    allPositive exActivePos = true ∧ calculateActiveTime exActivePos = 60000 :=
  ⟨by decide, (claim2_active_time exActivePos (by decide)).trans (by decide)⟩

/-! ### Claim C3 -/

theorem debugTimeGo_cons (e : ActivityEvent) (rest : List ActivityEvent)
    (dbg acc : Int) :
    debugTimeGo (e :: rest) dbg acc =
      if e.type = ActivityType.debugStart then debugTimeGo rest e.timestamp acc
      else if e.type = ActivityType.debugStop ∧ dbg ≠ 0 then
        debugTimeGo rest 0 (acc + (e.timestamp - dbg))
      else debugTimeGo rest dbg acc := rfl

theorem debugPairs_cons (e : ActivityEvent) (rest : List ActivityEvent)
    (o : Option Int) :
    debugPairs (e :: rest) o =
      if e.type = ActivityType.debugStart then debugPairs rest (some e.timestamp)
      else if e.type = ActivityType.debugStop then
        (match o with
          | some s => (e.timestamp - s) + debugPairs rest none
          | none => debugPairs rest none)
      else debugPairs rest o := rfl

theorem debugTimeGo_spec (l : List ActivityEvent) :
    (∀ e ∈ l, 0 < e.timestamp) →
    ∀ (acc : Int) (o : Option Int), (∀ s ∈ o, 0 < s) →
      debugTimeGo l (o.getD 0) acc = acc + debugPairs l o := by
  induction l with
  | nil => intro _ acc o _; simp [debugTimeGo, debugPairs]
  | cons e rest ih =>
    intro hpos acc o ho
    have hepos : 0 < e.timestamp := hpos e (by simp)
    have hrest : ∀ x ∈ rest, 0 < x.timestamp := fun x hx => hpos x (by simp [hx])
    rw [debugTimeGo_cons, debugPairs_cons]
    by_cases hstart : e.type = ActivityType.debugStart
    · rw [if_pos hstart, if_pos hstart]
      have := ih hrest acc (some e.timestamp) (by simpa using hepos)
      simpa using this
    · rw [if_neg hstart, if_neg hstart]
      by_cases hstop : e.type = ActivityType.debugStop
      · rw [if_pos hstop]
        cases o with
        | none =>
          rw [Option.getD_none, if_neg (fun hc => hc.2 rfl)]
          have := ih hrest acc none (by simp)
          simpa using this
        | some s =>
          have hs : 0 < s := ho s (by simp)
          rw [Option.getD_some, if_pos ⟨hstop, by omega⟩]
          have := ih hrest (acc + (e.timestamp - s)) none (by simp)
          simp only [Option.getD_none] at this
          rw [this]
          show acc + (e.timestamp - s) + debugPairs rest none =
            acc + (e.timestamp - s + debugPairs rest none)
          omega
      · rw [if_neg hstop, if_neg (fun hc => hstop hc.1)]
        exact ih hrest acc o ho

/-- C3 counterexample: a debug start at t = 0 and a stop at t = 120000
yield debug time 0, not the claimed 120000 — the start's timestamp 0 is
indistinguishable from the sentinel meaning "no open start", so the stop is
ignored. -/
theorem claim3_counterexample :
    calculateDebugTime exDebugZero = 0
    ∧ calculateDebugTime exDebugZero ≠ 120000 := by decide

/-- C3 (amended to positive timestamps): the debug time agrees with the
positional start/stop pairing over the timestamp-sorted events — each start
(re)opens the accumulator, the next stop closes it and adds the delta, a
lone trailing start contributes 0, and a stop without a preceding open
start is ignored. -/
theorem claim3_debug_time (l : List ActivityEvent) (h : allPositive l = true) :
    calculateDebugTime l = debugTimeSpec l := by
  have hpos : ∀ e ∈ sortEvents l, 0 < e.timestamp := by
    intro e he
    exact decide_eq_true_iff.mp
      ((List.all_eq_true.mp h) e ((sortEvents_perm l).subset he))
  unfold calculateDebugTime debugTimeSpec
  have := debugTimeGo_spec (sortEvents l) hpos 0 none (by simp)
  simpa using this

/-- Witness for C3 on the shifted vector: start t = 1, stop t = 120001
(paired, delta 120000) plus a lone trailing start at t = 200000
(contributes 0). -/
theorem claim3_witness :
    allPositive exDebugPos = true ∧ calculateDebugTime exDebugPos = 120000 :=
  ⟨by decide, (claim3_debug_time exDebugPos (by decide)).trans (by decide)⟩

/-! ### Claim C10 -/

/-- C10: for every event list with positive timestamps, the coding time —
the same gap-merge estimator run on the edit/save subsequence — is at most
the active time on the full list: restricting to a subsequence of the
qualifying events can only merge counted gaps into larger (possibly
discarded) ones, never increase the total. -/
theorem claim10_coding_le_active (l : List ActivityEvent) (h : allPositive l = true) :
    calculateCodingTime l ≤ calculateActiveTime l := by
  have hpos : ∀ e ∈ l, 0 < e.timestamp := by
    intro e he
    exact decide_eq_true_iff.mp ((List.all_eq_true.mp h) e he)
  have hposc : ∀ e ∈ l.filter (fun e => isCodingType e.type), 0 < e.timestamp :=
    fun e he => hpos e (List.mem_of_mem_filter he)
  unfold calculateCodingTime
  rw [calculateActiveTime_gapSum _ hposc, calculateActiveTime_gapSum _ hpos]
  have hFs : ((sortEvents l).filter (fun e => isActiveType e.type)).Sorted byTimestamp :=
    (sortEvents_sorted l).filter _
  have hFCs : (((sortEvents l).filter (fun e => isActiveType e.type)).filter
      (fun e => isCodingType e.type)).Sorted byTimestamp := hFs.filter _
  have hCs : ((sortEvents (l.filter (fun e => isCodingType e.type))).filter
      (fun e => isActiveType e.type)).Sorted byTimestamp :=
    (sortEvents_sorted _).filter _
  have hperm : ((sortEvents (l.filter (fun e => isCodingType e.type))).filter
        (fun e => isActiveType e.type)).Perm
      (((sortEvents l).filter (fun e => isActiveType e.type)).filter
        (fun e => isCodingType e.type)) := by
    have h1 : ((sortEvents (l.filter (fun e => isCodingType e.type))).filter
          (fun e => isActiveType e.type)).Perm
        ((l.filter (fun e => isCodingType e.type)).filter (fun e => isActiveType e.type)) :=
      (sortEvents_perm _).filter _
    have h2 : (((sortEvents l).filter (fun e => isActiveType e.type)).filter
          (fun e => isCodingType e.type)).Perm
        ((l.filter (fun e => isActiveType e.type)).filter (fun e => isCodingType e.type)) :=
      ((sortEvents_perm l).filter _).filter _
    have h3 : (l.filter (fun e => isCodingType e.type)).filter
          (fun e => isActiveType e.type)
        = (l.filter (fun e => isActiveType e.type)).filter (fun e => isCodingType e.type) := by
      rw [List.filter_filter, List.filter_filter]
      exact List.filter_congr (fun x _ => Bool.and_comm _ _)
    rw [h3] at h1
    exact h1.trans h2.symm
  have hmapeq : ((sortEvents (l.filter (fun e => isCodingType e.type))).filter
        (fun e => isActiveType e.type)).map ActivityEvent.timestamp
      = (((sortEvents l).filter (fun e => isActiveType e.type)).filter
        (fun e => isCodingType e.type)).map ActivityEvent.timestamp :=
    List.eq_of_perm_of_sorted (hperm.map _)
      (sorted_map_timestamp hCs) (sorted_map_timestamp hFCs)
  rw [hmapeq]
  exact gapSum_le_of_sublist _ _
    (List.Sublist.map _ (List.filter_sublist _))
    (sorted_map_timestamp hFs)

/-- Witness for C10 on a mixed list: both sides evaluate to 199 ms. -/
theorem claim10_witness :
    allPositive exMixed = true
    ∧ calculateCodingTime exMixed ≤ calculateActiveTime exMixed :=
  ⟨by decide, claim10_coding_le_active exMixed (by decide)⟩

end CodeFlow
